import Mathlib

/-
Verification development for the YOLOv2 FPGA accelerator model
(hls/core/core_compute.cpp, hls/core/core_io.cpp, hls/models/yolov2/yolo2_model.cpp,
linux_app/src/yolo2_inference.c).

Machine integers are modelled as Int with explicit wrapping where narrowing
matters (int16 stores are always saturated by the code itself before the store,
except for the one narrowing initializer modelled by int16Wrap below).  The
64-bit accumulator arithmetic of the compute kernel is modelled as exact Int
arithmetic: in the source the products are int16 x int16 (magnitude at most
2^30), the channel-group sum adds at most Tn of them, and every shift magnitude
is clamped to 30, so no int64 operation can overflow for the values the kernel
actually produces; theorems that quantify over raw accumulator values carry
explicit range hypotheses where the distinction matters.
-/

namespace Yolo2

/-- Saturation to the int16 storage range, as written at every store site of
core_compute.cpp (acc > 32767 -> 32767, acc < -32768 -> -32768). -/
def satStore (v : Int) : Int :=
  if v > 32767 then 32767 else if v < -32768 then -32768 else v

/-- Absolute value of a shift amount, mirroring the out_shift_abs / bias_shift_abs
precomputation of core_compute.cpp lines 53-63. -/
def shiftAbsC (s : Int) : Int :=
  if s > 0 then s else if s < 0 then -s else 0

/-- Shift magnitude clamped to 30, mirroring out_shift_mag / bias_shift_mag. -/
def shiftMagC (s : Int) : Int :=
  if shiftAbsC s > 30 then 30 else shiftAbsC s

/-- Rounding constant: (1 << (mag-1)) when shifting right, else 0, mirroring
out_round / bias_round of core_compute.cpp. -/
def shiftRoundC (s : Int) : Int :=
  if s > 0 ∧ shiftMagC s > 0 then 2 ^ ((shiftMagC s).toNat - 1) else 0

/-- Fixed-point rescale of a 64-bit accumulator by a signed shift amount, as in
core_compute.cpp: right shift (arithmetic, so floor division) with round-half-up
for positive shift, exact left shift for negative shift, identity for zero. -/
def rescaleC (s : Int) (v : Int) : Int :=
  if s > 0 then Int.fdiv (v + shiftRoundC s) (2 ^ (shiftMagC s).toNat)
  else if s < 0 then v * 2 ^ (shiftMagC s).toNat
  else v

/-- Channel-group reduction of weight*input products at full precision
(the tn loop of core_compute.cpp lines 100-106). -/
def groupSum (ws ins : List Int) : Int :=
  ((ws.zip ins).map (fun p => p.1 * p.2)).foldl (fun a b => a + b) 0

/-- One element update of the INT16 compute kernel (core_compute.cpp lines
77-118) for kernel offset (i,j) and input-channel-group base n: select the base
(bias rescaled from Qb to Qa_out on the very first tap and group, otherwise the
tile element's prior value), add the group sum rescaled from Qa_in+Qw to Qa_out,
and saturate into int16. -/
def computeElem (Qw Qa_in Qa_out Qb : Int) (i j n : Nat) (bias prior : Int)
    (ws ins : List Int) : Int :=
  let shift_out := Qa_in + Qw - Qa_out
  let shift_bias := Qb - Qa_out
  let base := if i = 0 ∧ j = 0 ∧ n = 0 then rescaleC shift_bias bias else prior
  let scaled := rescaleC shift_out (groupSum ws ins)
  satStore (base + scaled)

/-- Per-element Q-shift of linux_app/src/yolo2_inference.c
(yolo2_apply_q_shift_int16) and of the identical inline rescale in the reorg
alignment step of yolo2_model.cpp: shift 0 is untouched, positive shift is an
arithmetic right shift, negative shift a left shift, then saturate to int16. -/
def applyQShiftInt16 (shift : Int) (v : Int) : Int :=
  if shift = 0 then v
  else if shift > 0 then satStore (Int.fdiv v (2 ^ shift.toNat))
  else satStore (v * 2 ^ (-shift).toNat)

/-- FP32-mode rescale at a compute call site: the float branch of
core_compute.cpp (the #else arm) contains no scale, round, or saturate
operation, so every rescale call site is the identity. -/
def floatRescale (_s : Int) (v : Rat) : Rat := v

/-- INT16 branch of nonlinear_leaky_row (core_compute.cpp lines 192-198):
negative values are divided by 10 with C truncating integer division, then the
result is saturated into int16. -/
def leakyInt16 (isNL : Bool) (v : Int) : Int :=
  let t := if isNL = true ∧ v < 0 then Int.tdiv v 10 else v
  satStore t

/-- Float branch of nonlinear_leaky_row (core_compute.cpp lines 200-204),
with float arithmetic modelled exactly over the rationals: negative values are
multiplied by 0.1, others pass through. -/
def leakyFloat (isNL : Bool) (v : Rat) : Rat :=
  if v < 0 ∧ isNL = true then v * (1 / 10) else v

/-- Two's-complement narrowing of an int value to int16, used to model the one
unsaturated narrowing store in the code (the pooling pad constant). -/
def int16Wrap (v : Int) : Int := (v + 32768) % 65536 - 32768

/-- Pad constant stored into the input tile for out-of-bounds positions of a
pooling layer (core_io.cpp lines 96-98): the int literal -1024*1024 narrowed
into the int16 IO_Dtype. -/
def poolPadInt16 : Int := int16Wrap (-1024 * 1024)

/-- Row-major list of kernel offsets (i,j) visited by the i/j loops of
pool_yolo2 (core_compute.cpp lines 281-303). -/
def poolIdx (ks : Nat) : List (Nat × Nat) :=
  (List.range ks).flatMap (fun i => (List.range ks).map (fun j => (i, j)))

/-- One step of the pool_yolo2 running maximum for a fixed channel and output
position: reset to the int16 sentinel -32768 at offset (0,0), take the input if
it is strictly greater, and latch the output register at offset (1,1). -/
def poolStep (f : Nat → Nat → Int) (st : Int × Option Int) (ij : Nat × Nat) :
    Int × Option Int :=
  let t0 := if ij.1 = 0 ∧ ij.2 = 0 then (-32768 : Int) else st.1
  let t1 := if f ij.1 ij.2 > t0 then f ij.1 ij.2 else t0
  let o := if ij.1 = 1 ∧ ij.2 = 1 then some t1 else st.2
  (t1, o)

/-- Value written by pool_yolo2 for one window (none when the write condition
i==1 and j==1 is never reached), where f i j is the input value at kernel
offset (i,j) of the window. -/
def poolOut (ks : Nat) (f : Nat → Nat → Int) : Option Int :=
  ((poolIdx ks).foldl (poolStep f) (0, none)).2

/-- Reorg/route Q-alignment state after the permute layer: rescaled reorg
branch data, the untouched skip (conv24) branch data, the updated current
activation Q, and the pending Q published for the next consumer. -/
structure AlignResult where
  reorg : List Int
  branch : List Int
  currentQa : Int
  pendingQ : Int
deriving Repr, DecidableEq

/-- Q alignment executed after the channel-permute (reorg) step,
yolo2_model.cpp lines 352-372 / yolo2_inference.c lines 513-525: when a branch
Q was cached at the designated layer (route24Q > 0), the reorg-branch elements
are shifted by currentQa - min(route24Q, currentQa) and the result published as
both the current and the pending Q; the skip branch data is never touched. -/
def reorgAlign (route24Q currentQa : Int) (branch reorgData : List Int) :
    AlignResult :=
  if route24Q > 0 then
    let target := min route24Q currentQa
    let shift := currentQa - target
    if shift ≠ 0 then
      { reorg := reorgData.map (applyQShiftInt16 shift), branch := branch,
        currentQa := target, pendingQ := target }
    else
      { reorg := reorgData, branch := branch,
        currentQa := currentQa, pendingQ := currentQa }
  else
    { reorg := reorgData, branch := branch,
      currentQa := currentQa, pendingQ := -1 }

/-- Statement that a stored integer is within one LSB (of the target Q format)
of the exact value of source integer v quantized down by the given number of
bits — the ideal result of computing directly at min(Qa,Qb) from an
un-rescaled source.  The inequality abs (stored - v / 2^down) <= 1 over the
rationals is stated equivalently over Int, scaled through by 2^down. -/
def withinOneLSB (stored v : Int) (down : Nat) : Prop :=
  -(2 ^ down) ≤ stored * 2 ^ down - v ∧ stored * 2 ^ down - v ≤ 2 ^ down

instance (stored v : Int) (down : Nat) : Decidable (withinOneLSB stored v down) := by
  unfold withinOneLSB
  infer_instance

/-- Property asserted by the concatenation-alignment claim for a branch pair:
after alignment both tensors report Q = min(route24Q, currentQa), and each
stored element of the concatenation (skip branch and reorg branch) is within
one LSB of quantizing its un-rescaled source directly at that minimum. -/
def alignClaimProp (route24Q currentQa : Int) (branch reorgData : List Int) :
    Prop :=
  let res := reorgAlign route24Q currentQa branch reorgData
  let qmin := min route24Q currentQa
  res.currentQa = qmin ∧ res.pendingQ = qmin ∧
  res.branch.length = branch.length ∧
  res.reorg.length = reorgData.length ∧
  (∀ p ∈ res.branch.zip branch, withinOneLSB p.1 p.2 (route24Q - qmin).toNat) ∧
  (∀ p ∈ res.reorg.zip reorgData, withinOneLSB p.1 p.2 (currentQa - qmin).toNat)

instance (route24Q currentQa : Int) (branch reorgData : List Int) :
    Decidable (alignClaimProp route24Q currentQa branch reorgData) := by
  unfold alignClaimProp
  infer_instance

/-- Channel-loop trip values: the m values visited by the scheduler loop
for(m = 0; m < bound; m += step) of yolo2_accel.cpp line 122, i.e. the
multiples of step below bound in increasing order. -/
def mVisited (bound step : Nat) : List Nat :=
  (List.range bound).filter (fun m => m % step = 0)

/-- mLoops = ceil(OFM / TM) as computed by yolo2_model.cpp (the float ceil is
exact for the integer magnitudes involved, OFM <= 2048). -/
def mLoopsOf (ofm tm : Nat) : Nat := (ofm + tm - 1) / tm

/-- Channel-loop bound passed for a convolution layer: (mLoops + 1) * TM
(yolo2_model.cpp line 298). -/
def convBound (ofm tm : Nat) : Nat := (mLoopsOf ofm tm + 1) * tm

/-- Channel-loop bound passed for a max-pool layer: (mLoops + 2) * TM
(yolo2_model.cpp line 327). -/
def poolBound (ofm tm : Nat) : Nat := (mLoopsOf ofm tm + 2) * tm

/-- Arena scratch length in IO_Dtype elements (ModelConfig.mem_len,
model_config.cpp). -/
def memLen : Int := 6922240

/-- Reserved shelf for the layer-16 skip tensor (26 rows, width 26 aligned to
32, 512 channels). -/
def route16Len : Int := 26 * 32 * 512

/-- Reserved shelf length of the reorg (layer 27) output. -/
def conv27Len : Int := 13 * 16 * 256

/-- Reserved shelf length of the conv24 skip tensor. -/
def conv24Len : Int := 13 * 16 * 1024

/-- Detection head scratch reserved past the layer-30 output. -/
def detectionWorkspace : Int := 3 * 13 * 425

/-- Element offset of Memory_top inside Memory_buf (512-element guard band). -/
def arenaTop : Int := 512

/-- Element offset of Memory_bottom: Memory_top + mem_len. -/
def arenaBottom : Int := arenaTop + memLen

/-- Row width aligned up to 8 elements (256 bits), mirroring the
(w >> 3) << 3 plus 8 on a remainder computation of generate_iofm_offset. -/
def alignW8 (w : Int) : Int := (w / 8) * 8 + (if w % 8 = 0 then 0 else 8)

/-- Output geometry of one layer: spatial width, height, channel count. -/
structure LayerOut where
  w : Int
  h : Int
  c : Int
deriving Repr, DecidableEq

/-- Byte footprint (in elements) the planner reserves for a layer output:
out_c * out_h * (out_w aligned to 8). -/
def footprintOf (dims : Nat → LayerOut) (x : Nat) : Int :=
  (dims x).c * (dims x).h * alignW8 (dims x).w

/-- Unaligned element count of a layer output (the layer->outputs field used
for layer 30). -/
def outputsOf (dims : Nat → LayerOut) (x : Nat) : Int :=
  (dims x).c * (dims x).h * (dims x).w

/-- Output placement computed by generate_iofm_offset (yolo2_model.cpp lines
29-83): even layers below 18 go to a bottom cursor, odd ones to the top; layers
18-24 place below the route16 shelf; layers 26-30 are fixed; route layers 25
and 28 and the region layer 31 have no output placement. -/
def outOffsetOf (dims : Nat → LayerOut) (x : Nat) : Option Int :=
  if x < 18 then
    if x % 2 = 0 then some (arenaBottom - footprintOf dims x) else some arenaTop
  else if x < 25 then
    if x % 2 = 0 then some (arenaBottom - route16Len - footprintOf dims x)
    else some arenaTop
  else if x = 26 then some arenaTop
  else if x = 27 then some (arenaBottom - route16Len - conv24Len - conv27Len)
  else if x = 29 then some arenaTop
  else if x = 30 then
    some (arenaBottom - (outputsOf dims 30 + detectionWorkspace))
  else none

/-- Input placement computed by generate_iofm_offset: even layers read the
top region, odd layers read the previous output; layer 26 reads the route16
shelf, layer 29 the concatenated reorg/conv24 shelf, layer 31 the layer-30
output. -/
def inOffsetOf (dims : Nat → LayerOut) (x : Nat) : Option Int :=
  if x < 25 then
    if x % 2 = 0 then some arenaTop else outOffsetOf dims (x - 1)
  else if x = 26 then some (arenaBottom - route16Len)
  else if x = 27 then some arenaTop
  else if x = 29 then outOffsetOf dims 27
  else if x = 30 then some arenaTop
  else if x = 31 then outOffsetOf dims 30
  else none

/-- Modelled from the spec: the per-layer output geometry of the YOLOv2
network this pipeline runs.  The LayerDescriptor list itself is external input
(an ordered list from an external config parser, per the spec); the spec fixes
the topology — 416x416x3 input, the conv/pool trunk halving the plane down to
13x13, the layer-16 skip (26x26x512) routed to layer 26, conv24 (13x13x1024),
the reorg layer 27 (13x13x256), the 1280-channel concatenation and the
13x13x425 detection head — and the planner source hard-codes the matching
indices and shelf lengths. -/
def yolo2Dims : Nat → LayerOut
  | 0 => ⟨416, 416, 32⟩
  | 1 => ⟨208, 208, 32⟩
  | 2 => ⟨208, 208, 64⟩
  | 3 => ⟨104, 104, 64⟩
  | 4 => ⟨104, 104, 128⟩
  | 5 => ⟨104, 104, 64⟩
  | 6 => ⟨104, 104, 128⟩
  | 7 => ⟨52, 52, 128⟩
  | 8 => ⟨52, 52, 256⟩
  | 9 => ⟨52, 52, 128⟩
  | 10 => ⟨52, 52, 256⟩
  | 11 => ⟨26, 26, 256⟩
  | 12 => ⟨26, 26, 512⟩
  | 13 => ⟨26, 26, 256⟩
  | 14 => ⟨26, 26, 512⟩
  | 15 => ⟨26, 26, 256⟩
  | 16 => ⟨26, 26, 512⟩
  | 17 => ⟨13, 13, 512⟩
  | 18 => ⟨13, 13, 1024⟩
  | 19 => ⟨13, 13, 512⟩
  | 20 => ⟨13, 13, 1024⟩
  | 21 => ⟨13, 13, 512⟩
  | 22 => ⟨13, 13, 1024⟩
  | 23 => ⟨13, 13, 1024⟩
  | 24 => ⟨13, 13, 1024⟩
  | 25 => ⟨26, 26, 512⟩
  | 26 => ⟨26, 26, 64⟩
  | 27 => ⟨13, 13, 256⟩
  | 28 => ⟨13, 13, 1280⟩
  | 29 => ⟨13, 13, 1024⟩
  | 30 => ⟨13, 13, 425⟩
  | _ => ⟨13, 13, 425⟩

/-- Layers for which the planner emits an output placement. -/
def placedLayers : List Nat :=
  [0, 1, 2, 3, 4, 5, 6, 7, 8, 9, 10, 11, 12, 13, 14, 15, 16, 17, 18, 19, 20,
   21, 22, 23, 24, 26, 27, 29, 30]

/-- Index of the last layer that reads layer x's output tensor: the next layer
in the chain, except for the three shelf tensors — layer 16 is re-read by
layer 26 (route 25), and layers 24 and 27 are both read by layer 29 through
the route-28 concatenation. -/
def lastReader (x : Nat) : Nat :=
  if x = 16 then 26 else if x = 24 then 29 else if x = 27 then 29 else x + 1

/-- Planned element range (offset, length) of layer x's output tensor under
the YOLOv2 geometry. -/
def tensorRange (x : Nat) : Option (Int × Int) :=
  match outOffsetOf yolo2Dims x with
  | some o => some (o, footprintOf yolo2Dims x)
  | none => none

/-- Element range the 416x416x3 input image occupies at the top cursor before
layer 0 runs. -/
def inputImageRange : Int × Int := (arenaTop, 416 * 416 * 3)

/-- Disjointness of two half-open element ranges. -/
def rangesDisjoint (a b : Int × Int) : Prop :=
  a.1 + a.2 ≤ b.1 ∨ b.1 + b.2 ≤ a.1

instance (a b : Int × Int) : Decidable (rangesDisjoint a b) := by
  unfold rangesDisjoint
  infer_instance

/-- Liveness discipline of the arena: every pair of output tensors whose live
intervals overlap (producer index up to last reader) occupies disjoint ranges,
and the input image is disjoint from layer 0's output. -/
def arenaNoOverlap : Prop :=
  (∀ r ∈ (tensorRange 0).toList, rangesDisjoint inputImageRange r) ∧
  ∀ i ∈ placedLayers, ∀ j ∈ placedLayers,
    i < j → j ≤ lastReader i →
      ∀ ri ∈ (tensorRange i).toList, ∀ rj ∈ (tensorRange j).toList,
        rangesDisjoint ri rj

instance : Decidable arenaNoOverlap := by
  unfold arenaNoOverlap
  infer_instance

/-- Oversized variant of the layer list: layer 0 produces 64 channels instead
of 32, so its output footprint alone exceeds the arena capacity. -/
def oversizedDims : Nat → LayerOut :=
  fun x => if x = 0 then ⟨416, 416, 64⟩ else yolo2Dims x

/-- Placement of layer x stays inside the arena. -/
def placementInArena (dims : Nat → LayerOut) (x : Nat) : Prop :=
  ∀ o ∈ (outOffsetOf dims x).toList,
    arenaTop ≤ o ∧ o + footprintOf dims x ≤ arenaBottom

instance (dims : Nat → LayerOut) (x : Nat) : Decidable (placementInArena dims x) := by
  unfold placementInArena
  infer_instance

/-- Per-channel maximum of a 2x2 pooling window. -/
def windowMax2 (f : Nat → Nat → Int) : Int :=
  max (max (f 0 0) (f 0 1)) (max (f 1 0) (f 1 1))

/-! Helper lemmas shared by the numeric claims. -/

theorem satStore_mem (v : Int) : -32768 ≤ satStore v ∧ satStore v ≤ 32767 := by
  unfold satStore
  split_ifs <;> omega

theorem satStore_eq_self {v : Int} (h1 : -32768 ≤ v) (h2 : v ≤ 32767) :
    satStore v = v := by
  unfold satStore
  split_ifs <;> omega

theorem fdiv_pow_bounds (v : Int) (s : Nat) (h1 : -32768 ≤ v) (h2 : v ≤ 32767) :
    -32768 ≤ Int.fdiv v (2 ^ s) ∧ Int.fdiv v (2 ^ s) ≤ 32767 := by
  have hpow : (0 : Int) < 2 ^ s := by positivity
  rw [Int.fdiv_eq_ediv _ hpow.le]
  constructor
  · have habs := Int.abs_ediv_le_abs v (2 ^ s)
    have hv : |v| ≤ 32768 := by rw [abs_le]; omega
    have := le_trans habs hv
    rw [abs_le] at this
    omega
  · rcases le_or_lt 0 v with hv | hv
    · exact le_trans (Int.ediv_le_self _ hv) h2
    · have := Int.ediv_le_ediv hpow hv.le
      rw [Int.zero_ediv] at this
      omega

theorem fdiv_pow_near (v : Int) (s : Nat) :
    0 ≤ v - Int.fdiv v (2 ^ s) * 2 ^ s ∧
    v - Int.fdiv v (2 ^ s) * 2 ^ s < 2 ^ s := by
  have hpow : (0 : Int) < 2 ^ s := by positivity
  rw [Int.fdiv_eq_ediv _ hpow.le]
  have heq := Int.ediv_add_emod v (2 ^ s)
  have h1 := Int.emod_nonneg v (ne_of_gt hpow)
  have h2 := Int.emod_lt_of_pos v hpow
  rw [mul_comm] at heq
  omega

/-! Claim theorems. -/

/-- C2: the fixed-point rescale of the compute kernel behaves as specified:
for a positive shift the accumulator gets the round-half-up constant
1 << (mag - 1) added and is then arithmetic-shifted right, where mag is the
shift magnitude clamped to at most 30; for a negative shift the result is an
exact left shift by the clamped magnitude; and the stored result is saturated
into [-32768, 32767]. -/
theorem c2_rescale_shift_round_saturate (v s : Int) :
    (0 < s → rescaleC s v =
      Int.fdiv (v + 2 ^ ((min s 30).toNat - 1)) (2 ^ (min s 30).toNat)) ∧
    (s < 0 → rescaleC s v = v * 2 ^ (min (-s) 30).toNat) ∧
    -32768 ≤ satStore v ∧ satStore v ≤ 32767 := by
  refine ⟨fun hs => ?_, fun hs => ?_, (satStore_mem v).1, (satStore_mem v).2⟩
  · have habs : shiftAbsC s = s := by
      unfold shiftAbsC
      rw [if_pos hs]
    have hmag : shiftMagC s = min s 30 := by
      unfold shiftMagC
      rw [habs]
      rcases le_or_lt s 30 with h | h
      · rw [if_neg (by omega), min_eq_left h]
      · rw [if_pos h, min_eq_right (by omega)]
    have hmagpos : shiftMagC s > 0 := by
      rw [hmag]
      exact lt_min hs (by norm_num)
    have hround : shiftRoundC s = 2 ^ ((shiftMagC s).toNat - 1) := by
      unfold shiftRoundC
      rw [if_pos ⟨hs, hmagpos⟩]
    unfold rescaleC
    rw [if_pos hs, hround, hmag]
  · have habs : shiftAbsC s = -s := by
      unfold shiftAbsC
      rw [if_neg (by omega), if_pos hs]
    have hmag : shiftMagC s = min (-s) 30 := by
      unfold shiftMagC
      rw [habs]
      rcases le_or_lt (-s) 30 with h | h
      · rw [if_neg (by omega), min_eq_left h]
      · rw [if_pos h, min_eq_right (by omega)]
    unfold rescaleC
    rw [if_neg (by omega), if_pos hs, hmag]

/-- Closed witness for c2_rescale_shift_round_saturate: the right-shift branch
at shift 5 on accumulator 1000 and the left-shift branch at shift -3 on 7. -/
theorem c2_rescale_witness :
    rescaleC 5 1000 =
      Int.fdiv (1000 + 2 ^ ((min (5 : Int) 30).toNat - 1))
        (2 ^ (min (5 : Int) 30).toNat) ∧
    rescaleC (-3) 7 = 7 * 2 ^ (min (-(-3 : Int)) 30).toNat :=
  ⟨(c2_rescale_shift_round_saturate 1000 5).1 (by norm_num),
   (c2_rescale_shift_round_saturate 7 (-3)).2.1 (by norm_num)⟩

/-- C3: in the quantized convolution kernel the running tile value starts from
the bias rescaled from its own Q to the output Q exactly when the kernel
offset is (0,0) and the input-channel group is the first one, and in every
other case it is the tile element's prior stored value, onto which the newly
rescaled channel-group sum is accumulated (then saturated). -/
theorem c3_bias_init_or_accumulate (Qw Qa_in Qa_out Qb : Int) (i j n : Nat)
    (bias prior : Int) (ws ins : List Int) :
    (i = 0 ∧ j = 0 ∧ n = 0 →
      computeElem Qw Qa_in Qa_out Qb i j n bias prior ws ins =
        satStore (rescaleC (Qb - Qa_out) bias +
          rescaleC (Qa_in + Qw - Qa_out) (groupSum ws ins))) ∧
    (¬(i = 0 ∧ j = 0 ∧ n = 0) →
      computeElem Qw Qa_in Qa_out Qb i j n bias prior ws ins =
        satStore (prior + rescaleC (Qa_in + Qw - Qa_out) (groupSum ws ins))) := by
  constructor
  · intro h
    simp only [computeElem]
    rw [if_pos h]
  · intro h
    simp only [computeElem]
    rw [if_neg h]

/-- Closed witness for c3_bias_init_or_accumulate: kernel offset (0,0) with
first channel group takes the bias path, kernel offset (1,0) the accumulate
path. -/
theorem c3_bias_init_witness :
    computeElem 4 4 4 4 0 0 0 10 99 [16] [16] =
      satStore (rescaleC (4 - 4) 10 + rescaleC (4 + 4 - 4) (groupSum [16] [16])) ∧
    computeElem 4 4 4 4 1 0 0 10 99 [16] [16] =
      satStore (99 + rescaleC (4 + 4 - 4) (groupSum [16] [16])) :=
  ⟨(c3_bias_init_or_accumulate 4 4 4 4 0 0 0 10 99 [16] [16]).1 ⟨rfl, rfl, rfl⟩,
   (c3_bias_init_or_accumulate 4 4 4 4 1 0 0 10 99 [16] [16]).2 (by omega)⟩

/-- C10: in INT16 mode the pooling pad constant -1024*1024 narrows to the
int16 value 0 — not the max-pool sentinel -32768 — so an out-of-bounds
(padded) position enters a pooling window as 0 and dominates a window whose
real values are all negative: a 2x2 window holding one real value -5 and three
padded positions pools to 0. -/
theorem c10_pool_pad_narrows_to_zero :
    poolPadInt16 = 0 ∧ poolPadInt16 ≠ -32768 ∧
    poolOut 2 (fun i j => if i = 0 ∧ j = 0 then -5 else poolPadInt16) =
      some 0 := by
  decide

/-- C5 fails as stated for windows larger than 2x2: pool_yolo2 latches the
output register at kernel offset (1,1), not at the window end, so a 3x3 window
whose maximum 5 sits at offset (2,2) (all other values 0) pools to 0 while the
window maximum is 5. -/
theorem c5_counterexample :
    poolOut 3 (fun i j => if i = 2 ∧ j = 2 then 5 else 0) = some 0 ∧
    ((poolIdx 3).map
        (fun ij => if ij.1 = 2 ∧ ij.2 = 2 then (5 : Int) else 0)).foldl
      max (-32768) = 5 := by
  decide

/-- C5 amended: for the 2x2 pooling windows the model actually issues
(Ksize = 2, where kernel offset (1,1) is the window end), the value written by
pool_yolo2 is exactly the per-channel maximum of the four window inputs, and
that maximum is attained by one of the inputs — so for inputs no smaller than
the sentinel -32768 the sentinel initialization never leaks into the output. -/
theorem c5_pool2_correct (f : Nat → Nat → Int) (h : ∀ i j, -32768 ≤ f i j) :
    poolOut 2 f = some (windowMax2 f) ∧
    (windowMax2 f = f 0 0 ∨ windowMax2 f = f 0 1 ∨ windowMax2 f = f 1 0 ∨
      windowMax2 f = f 1 1) := by
  constructor
  · have hidx : poolIdx 2 = [(0, 0), (0, 1), (1, 0), (1, 1)] := by decide
    have h00 := h 0 0
    have h01 := h 0 1
    have h10 := h 1 0
    have h11 := h 1 1
    unfold poolOut
    rw [hidx]
    simp only [List.foldl, poolStep, windowMax2, max_def, Option.some.injEq]
    norm_num
    split_ifs <;> omega
  · unfold windowMax2
    rcases max_choice (max (f 0 0) (f 0 1)) (max (f 1 0) (f 1 1)) with h1 | h1 <;>
      rw [h1]
    · rcases max_choice (f 0 0) (f 0 1) with h2 | h2 <;> rw [h2]
      · exact Or.inl rfl
      · exact Or.inr (Or.inl rfl)
    · rcases max_choice (f 1 0) (f 1 1) with h2 | h2 <;> rw [h2]
      · exact Or.inr (Or.inr (Or.inl rfl))
      · exact Or.inr (Or.inr (Or.inr rfl))

/-- Closed witness for c5_pool2_correct: a 2x2 window with maximum 9 at offset
(0,1) pools to 9. -/
theorem c5_pool2_witness :
    poolOut 2 (fun i j => if i = 0 ∧ j = 1 then 9 else -7) = some 9 := by
  have h := (c5_pool2_correct (fun i j => if i = 0 ∧ j = 1 then 9 else -7)
    (by intro i j; dsimp only; split_ifs <;> omega)).1
  rw [h]
  decide

theorem mVisited_mul_length (step : Nat) (hstep : 0 < step) :
    ∀ k : Nat, (mVisited (k * step) step).length = k := by
  intro k
  induction k with
  | zero => simp [mVisited]
  | succ n ih =>
    have hsplit : (n + 1) * step = n * step + step := by ring
    unfold mVisited at ih ⊢
    rw [hsplit, List.range_add, List.filter_append, List.length_append, ih]
    have hone : (((List.range step).map (fun x => n * step + x)).filter
        (fun m => decide (m % step = 0))).length = 1 := by
      rw [← List.countP_eq_length_filter, List.countP_map]
      have hcongr : ∀ a ∈ List.range step,
          (((fun m => decide (m % step = 0)) ∘ (fun x => n * step + x)) a = true) ↔
            (decide (a = 0) = true) := by
        intro a ha
        rw [List.mem_range] at ha
        simp only [Function.comp_apply, decide_eq_true_eq]
        have hm : (n * step + a) % step = a := by
          rw [Nat.add_comm, Nat.add_mul_mod_self_right]
          exact Nat.mod_eq_of_lt ha
        rw [hm]
      rw [List.countP_congr hcongr]
      obtain ⟨m, rfl⟩ : ∃ m, step = m + 1 := ⟨step - 1, by omega⟩
      rw [List.range_succ_eq_map,
        List.countP_cons_of_pos _ _ (by simp), List.countP_map]
      have hzero : List.countP ((fun a => decide (a = 0)) ∘ Nat.succ)
          (List.range m) = 0 := by
        rw [List.countP_eq_zero]
        intro a _
        simp [Function.comp]
      rw [hzero]
    rw [hone]

/-- C4 fails as stated for pooling layers: a max-pool layer with OFM = 32 and
TM = 4 gets the bound (mLoops + 2)*TM, so the channel loop runs 10 iterations,
not OFM/TM + 1 = 9. -/
theorem c4_counterexample :
    (mVisited (poolBound 32 4) 4).length = 10 ∧
    ¬ (mVisited (poolBound 32 4) 4).length = 32 / 4 + 1 := by
  decide

/-- C4 amended: for a layer whose output-channel count is an exact multiple of
TM, the scheduler's channel loop runs exactly OFM/TM + 1 iterations for a
convolution layer (bound (mLoops+1)*TM, one drain iteration) and exactly
OFM/TM + 2 iterations for a pooling layer (bound (mLoops+2)*TM, two drain
iterations for the 3-stage pipeline). -/
theorem c4_channel_loop_drain (ofm tm : Nat) (htm : 0 < tm)
    (hdvd : ofm % tm = 0) :
    (mVisited (convBound ofm tm) tm).length = ofm / tm + 1 ∧
    (mVisited (poolBound ofm tm) tm).length = ofm / tm + 2 := by
  obtain ⟨q, rfl⟩ : ∃ q, ofm = tm * q :=
    ⟨ofm / tm, (Nat.div_mul_cancel (Nat.dvd_of_mod_eq_zero hdvd)).symm ▸
      (Nat.mul_div_cancel' (Nat.dvd_of_mod_eq_zero hdvd)).symm⟩
  have hq : tm * q / tm = q := Nat.mul_div_cancel_left q htm
  have hml : mLoopsOf (tm * q) tm = q := by
    unfold mLoopsOf
    have h1 : tm * q + tm - 1 = tm * q + (tm - 1) := by omega
    rw [h1, Nat.mul_add_div htm, Nat.div_eq_of_lt (by omega)]
    omega
  constructor
  · rw [hq]
    unfold convBound
    rw [hml]
    exact mVisited_mul_length tm htm (q + 1)
  · rw [hq]
    unfold poolBound
    rw [hml]
    exact mVisited_mul_length tm htm (q + 2)

/-- Closed witness for c4_channel_loop_drain at OFM = 32, TM = 4: the
convolution bound yields 9 channel-loop iterations, the pooling bound 10. -/
theorem c4_channel_loop_witness :
    (mVisited (convBound 32 4) 4).length = 32 / 4 + 1 ∧
    (mVisited (poolBound 32 4) 4).length = 32 / 4 + 2 :=
  c4_channel_loop_drain 32 4 (by norm_num) (by norm_num)

/-- C6: under the YOLOv2 geometry, the placements emitted by
generate_iofm_offset give every pair of simultaneously-live output tensors
(producer index up to and including the last layer that reads the tensor —
the next layer, or layer 26 for the layer-16 skip shelf and layer 29 for the
conv24/reorg shelves) disjoint element ranges, and the staged input image is
disjoint from layer 0's output. -/
theorem c6_arena_no_overlap : arenaNoOverlap := by
  decide

/-- C7 fails as stated: the planner of generate_iofm_offset has no failure
outcome and performs no capacity check — on a layer list whose layer-0
footprint (64*416*416 elements) exceeds the arena capacity it still returns a
placement, and that placement lies outside the arena (offset -4152832, before
the arena start). -/
theorem c7_counterexample :
    memLen < footprintOf oversizedDims 0 ∧
    outOffsetOf oversizedDims 0 = some (-4152832) ∧
    ¬ placementInArena oversizedDims 0 := by
  decide

/-- C7 amended: the planner performs no capacity check and signals no error;
for the shipped YOLOv2 layer geometry every emitted placement stays inside the
arena, while for an over-capacity layer list the planner silently emits the
placement arenaBottom - footprint, which falls outside the arena. -/
theorem c7_planner_no_capacity_check :
    (∀ x ∈ placedLayers, placementInArena yolo2Dims x) ∧
    memLen < footprintOf oversizedDims 0 ∧
    outOffsetOf oversizedDims 0 =
      some (arenaBottom - footprintOf oversizedDims 0) ∧
    arenaBottom - footprintOf oversizedDims 0 < arenaTop := by
  decide

theorem leaky_tdiv_bounds {v : Int} (h1 : -32768 ≤ v) (hv : v < 0) :
    -32768 ≤ Int.tdiv v 10 ∧ Int.tdiv v 10 ≤ 32767 := by
  have e1 : Int.tdiv v 10 = -((-v) / 10) := by
    conv_lhs => rw [show v = -(-v) by ring]
    rw [Int.neg_tdiv, Int.tdiv_eq_ediv (by omega) (by norm_num)]
  have hb : 0 ≤ (-v) / 10 := Int.ediv_nonneg (by omega) (by norm_num)
  have hub : (-v) / 10 ≤ -v := Int.ediv_le_self _ (by omega)
  omega

/-- C9: with the leaky flag set, the write-back stage maps every negative
int16 element v to v / 10 by C truncating integer division (toward zero) and
stores every non-negative element unchanged, with the saturation step a no-op
on in-range values; the float branch multiplies negatives by 0.1; and the
truncating rule visibly differs from floor division (e.g. at -15). -/
theorem c9_leaky_truncating_div (v : Int) (h1 : -32768 ≤ v) (h2 : v ≤ 32767) :
    (v < 0 → leakyInt16 true v = Int.tdiv v 10) ∧
    (0 ≤ v → leakyInt16 true v = v) ∧
    (∀ q : Rat, q < 0 → leakyFloat true q = q * (1 / 10)) ∧
    leakyInt16 true (-15) = -1 ∧ Int.fdiv (-15) 10 = -2 := by
  refine ⟨fun hv => ?_, fun hv => ?_, fun q hq => ?_, by decide, by decide⟩
  · simp only [leakyInt16]
    rw [if_pos ⟨by trivial, hv⟩]
    have hb := leaky_tdiv_bounds h1 hv
    exact satStore_eq_self hb.1 hb.2
  · simp only [leakyInt16]
    rw [if_neg (fun hcon => absurd hcon.2 (by omega))]
    exact satStore_eq_self h1 h2
  · simp only [leakyFloat]
    rw [if_pos ⟨hq, by trivial⟩]

/-- Closed witness for c9_leaky_truncating_div: -100 maps to -10 by truncating
division, 200 passes through unchanged. -/
theorem c9_leaky_witness :
    leakyInt16 true (-100) = Int.tdiv (-100) 10 ∧ leakyInt16 true 200 = 200 :=
  ⟨(c9_leaky_truncating_div (-100) (by norm_num) (by norm_num)).1 (by norm_num),
   (c9_leaky_truncating_div 200 (by norm_num) (by norm_num)).2.1 (by norm_num)⟩

theorem zip_self_eq {α : Type} {l : List α} : ∀ p ∈ l.zip l, p.1 = p.2 := by
  induction l with
  | nil => intro p hp; simp at hp
  | cons a t ih =>
    intro p hp
    rw [List.zip_cons_cons] at hp
    rcases List.mem_cons.mp hp with hp | hp
    · rw [hp]
    · exact ih p hp

theorem zip_map_left {α β : Type} (f : α → β) :
    ∀ (l : List α), ∀ p ∈ (l.map f).zip l, ∃ v, v ∈ l ∧ p = (f v, v) := by
  intro l
  induction l with
  | nil => intro p hp; simp at hp
  | cons a t ih =>
    intro p hp
    rw [List.map_cons, List.zip_cons_cons] at hp
    rcases List.mem_cons.mp hp with hp | hp
    · exact ⟨a, List.mem_cons_self a t, hp⟩
    · obtain ⟨v, hv, hpv⟩ := ih p hp
      exact ⟨v, List.mem_cons_of_mem a hv, hpv⟩

theorem applyQShift_down_within (v shift : Int) (hs : 0 < shift)
    (h1 : -32768 ≤ v) (h2 : v ≤ 32767) :
    withinOneLSB (applyQShiftInt16 shift v) v shift.toNat := by
  have hfd := fdiv_pow_bounds v shift.toNat h1 h2
  have hnear := fdiv_pow_near v shift.toNat
  have happ : applyQShiftInt16 shift v = Int.fdiv v (2 ^ shift.toNat) := by
    unfold applyQShiftInt16
    rw [if_neg (by omega), if_pos hs]
    exact congrArg satStore rfl |>.trans (satStore_eq_self hfd.1 hfd.2)
  rw [happ]
  unfold withinOneLSB
  omega

/-- C1 fails as stated when the cached branch Q exceeds the current Q: with
route24Q = 5 and currentQa = 3 the alignment step rescales nothing (the shift
is 0) and publishes pending Q = 3 = min(5,3), but the skip-branch element 8 is
stored unchanged, while quantizing it directly at Q = 3 from the un-rescaled
source gives 2 — an error of 6 LSB, beyond the claimed +-1. -/
theorem c1_counterexample : ¬ alignClaimProp 5 3 [8] [] := by
  decide

/-- C1 amended: provided the cached branch Q does not exceed the current Q
(so the reorg branch is the one holding the higher Q, as in the YOLOv2 flow),
the alignment step brings both tensors to min(branch Q, current Q) — the reorg
branch rescaled down, the skip branch already there — publishes that Q as
current and pending, and every element of the concatenation is within one LSB
of computing it directly at the minimum from un-rescaled sources; when the
branch Q exceeds the current Q the code rescales neither tensor, so the skip
branch keeps its higher Q (see the counterexample). -/
theorem c1_align_branch_min (route24Q currentQa : Int)
    (branch reorgData : List Int) (hpos : 0 < route24Q)
    (hle : route24Q ≤ currentQa)
    (hr : ∀ v ∈ reorgData, -32768 ≤ v ∧ v ≤ 32767) :
    alignClaimProp route24Q currentQa branch reorgData := by
  have hqmin : min route24Q currentQa = route24Q := min_eq_left hle
  rcases eq_or_lt_of_le hle with heq | hlt
  · subst heq
    have hres : reorgAlign route24Q route24Q branch reorgData =
        { reorg := reorgData, branch := branch,
          currentQa := route24Q, pendingQ := route24Q } := by
      unfold reorgAlign
      rw [if_pos hpos, min_self, if_neg (by omega)]
    simp only [alignClaimProp, hres, min_self]
    refine ⟨by trivial, by trivial, by trivial, by trivial, ?_, ?_⟩
    · intro p hp
      have hpe := zip_self_eq p hp
      unfold withinOneLSB
      rw [sub_self, Int.toNat_zero, pow_zero]
      omega
    · intro p hp
      have hpe := zip_self_eq p hp
      unfold withinOneLSB
      rw [sub_self, Int.toNat_zero, pow_zero]
      omega
  · have hres : reorgAlign route24Q currentQa branch reorgData =
        { reorg := reorgData.map (applyQShiftInt16 (currentQa - route24Q)),
          branch := branch, currentQa := route24Q, pendingQ := route24Q } := by
      unfold reorgAlign
      rw [if_pos hpos, hqmin, if_pos (by omega)]
    simp only [alignClaimProp, hres, hqmin]
    refine ⟨by trivial, by trivial, by trivial, by simp, ?_, ?_⟩
    · intro p hp
      have hpe := zip_self_eq p hp
      unfold withinOneLSB
      rw [sub_self, Int.toNat_zero, pow_zero]
      omega
    · intro p hp
      obtain ⟨v, hv, hpv⟩ := zip_map_left (applyQShiftInt16 (currentQa - route24Q))
        reorgData p hp
      rw [hpv]
      exact applyQShift_down_within v (currentQa - route24Q) (by omega)
        (hr v hv).1 (hr v hv).2

/-- Closed witness for c1_align_branch_min: branch Q 3, current Q 5; the reorg
element 1001 is rescaled down by 2 bits, the skip element 100 is untouched,
and both branches land at Q = 3 within one LSB. -/
theorem c1_align_witness : alignClaimProp 3 5 [100] [1001] :=
  c1_align_branch_min 3 5 [100] [1001] (by norm_num) (by norm_num) (by decide)

/-- C8 fails as stated in fixed-point mode: rescaling 7 by shift 2 and back by
-2 yields 4, differing from the source by 3 of its LSB — the error of the
floor-shift round trip is only bounded by one LSB of the coarser intermediate
format (2^s), not by one LSB of the source format. -/
theorem c8_counterexample :
    applyQShiftInt16 (-2) (applyQShiftInt16 2 7) = 4 ∧
    ¬ (-1 ≤ applyQShiftInt16 (-2) (applyQShiftInt16 2 7) - 7 ∧
        applyQShiftInt16 (-2) (applyQShiftInt16 2 7) - 7 ≤ 1) := by
  decide

/-- C8 amended: rescaling x by shift s and then by -s is the identity in float
mode (the FP32 path performs no rescale); in fixed-point mode, provided no
saturation intervenes on the up-shift (for s < 0 the scaled magnitude stays in
int16), the round trip differs from x by less than 2^s — one LSB of the
coarser intermediate format — and is exact for s <= 0. -/
theorem c8_roundtrip (x s : Int) (h1 : -32768 ≤ x) (h2 : x ≤ 32767)
    (hnosat : s < 0 → |x| * 2 ^ (-s).toNat ≤ 32767) :
    floatRescale (-s) (floatRescale s (x : Rat)) = (x : Rat) ∧
    -(2 ^ s.toNat) < applyQShiftInt16 (-s) (applyQShiftInt16 s x) - x ∧
    applyQShiftInt16 (-s) (applyQShiftInt16 s x) - x < 2 ^ s.toNat := by
  refine ⟨rfl, ?_⟩
  rcases lt_trichotomy s 0 with hs | hs | hs
  · have hm : (0 : Int) < 2 ^ (-s).toNat := by positivity
    have hxa : |x * 2 ^ (-s).toNat| ≤ 32767 := by
      rw [abs_mul, abs_pow, show |(2 : Int)| = 2 from by norm_num]
      exact hnosat hs
    rw [abs_le] at hxa
    have ha : applyQShiftInt16 s x = x * 2 ^ (-s).toNat := by
      unfold applyQShiftInt16
      rw [if_neg (by omega), if_neg (by omega)]
      exact satStore_eq_self (by omega) hxa.2
    have hb : applyQShiftInt16 (-s) (x * 2 ^ (-s).toNat) = x := by
      unfold applyQShiftInt16
      rw [if_neg (by omega), if_pos (by omega),
        Int.mul_fdiv_cancel x (ne_of_gt hm)]
      exact satStore_eq_self h1 h2
    rw [ha, hb, Int.toNat_of_nonpos hs.le]
    omega
  · subst hs
    have h0 : applyQShiftInt16 0 x = x := by
      unfold applyQShiftInt16
      rw [if_pos rfl]
    rw [neg_zero, h0, h0, Int.toNat_zero, pow_zero]
    omega
  · have hfd := fdiv_pow_bounds x s.toNat h1 h2
    have hnear := fdiv_pow_near x s.toNat
    have ha : applyQShiftInt16 s x = Int.fdiv x (2 ^ s.toNat) := by
      unfold applyQShiftInt16
      rw [if_neg (by omega), if_pos hs]
      exact satStore_eq_self hfd.1 hfd.2
    rw [ha]
    have hb : applyQShiftInt16 (-s) (Int.fdiv x (2 ^ s.toNat)) =
        satStore (Int.fdiv x (2 ^ s.toNat) * 2 ^ s.toNat) := by
      unfold applyQShiftInt16
      rw [if_neg (by omega), if_neg (by omega), neg_neg]
    rw [hb]
    rcases le_or_lt (-32768) (Int.fdiv x (2 ^ s.toNat) * 2 ^ s.toNat) with hge | hl
    · rw [satStore_eq_self hge (by omega)]
      omega
    · rw [show satStore (Int.fdiv x (2 ^ s.toNat) * 2 ^ s.toNat) = -32768 from by
        unfold satStore; split_ifs <;> omega]
      omega

/-- Closed witness for c8_roundtrip: x = 100, s = 3 (down then up); the round
trip lands within 2^3 of the source, and the float path is the identity. -/
theorem c8_roundtrip_witness :
    floatRescale (-(3 : Int)) (floatRescale 3 ((100 : Int) : Rat)) =
      ((100 : Int) : Rat) ∧
    -(2 ^ (3 : Int).toNat) <
      applyQShiftInt16 (-3) (applyQShiftInt16 3 100) - 100 ∧
    applyQShiftInt16 (-3) (applyQShiftInt16 3 100) - 100 < 2 ^ (3 : Int).toNat :=
  c8_roundtrip 100 3 (by norm_num) (by norm_num)
    (fun h => absurd h (by norm_num))

end Yolo2
